import Mathlib

/-!
Shallow embedding of the Pomodoro timer component
(`src/components/PomodoroTimer.tsx`, duplicated in `src/unnamed/part_001`).

The React component state becomes an explicit `TimerState` record; each event
handler and the interval callback become pure state transformers.  The two
`localStorage` entries (`pomodoroBlocks`, `user`) are modelled as optional
fields of the state (`storeBlocks`, `storeUser`); `new Date()` at save time is
passed in as an explicit `now : String` argument; `toLocaleString` /
`toLocaleDateString` are uninterpreted rendering functions passed as
parameters.  All numeric values in the component are integers, so JS numbers
are modelled as `Int`.
-/

namespace Pomodoro

/-- A saved work block (`interface TimerBlock` in the source). -/
structure TimerBlock where
  timestamp : String
  duration : Int
  title : String
  notes : String
deriving DecidableEq, Repr

/-- The logged-in user (`interface User` in the source): it holds only the
email. -/
structure User where
  email : String
deriving DecidableEq, Repr

/-- Full session length in seconds for the current mode: `50 * 60` when the
long session toggle is on, `25 * 60` otherwise (the two literals the source
uses in `resetTimer`, `toggleSessionLength` and `saveBlock`). -/
def fullLength (isLongSession : Bool) : Int :=
  if isLongSession then 50 * 60 else 25 * 60

/-- The component state: one field per `useState` hook that the specified
behaviour touches, plus the two persisted `localStorage` entries. -/
structure TimerState where
  time : Int
  isRunning : Bool
  isLongSession : Bool
  title : String
  notes : String
  savedBlocks : List TimerBlock
  isSoundEnabled : Bool
  user : Option User
  email : String
  password : String
  storeBlocks : Option (List TimerBlock)
  storeUser : Option User
deriving DecidableEq, Repr

/-- Initial state of the hooks: `time = 25 * 60`, nothing running, short mode,
empty inputs, no saved blocks, no user, empty store. -/
def initState : TimerState :=
  { time := 25 * 60
    isRunning := false
    isLongSession := false
    title := ""
    notes := ""
    savedBlocks := []
    isSoundEnabled := true
    user := none
    email := ""
    password := ""
    storeBlocks := none
    storeUser := none }

/-- One firing of the interval callback (`setInterval` body): if `prevTime > 0`
return `prevTime - 1`, otherwise stop the timer and return 0.  The sound side
effect carries no state and is dropped. -/
def tick (s : TimerState) : TimerState :=
  if s.time > 0 then { s with time := s.time - 1 }
  else { s with time := 0, isRunning := false }

/-- The source's `resetTimer`: stop the timer and restore the full length of
the current mode. -/
def resetTimer (s : TimerState) : TimerState :=
  { s with isRunning := false, time := fullLength s.isLongSession }

/-- The source's `toggleTimer`: when `time === 0` it first calls `resetTimer`,
then sets `isRunning` to the negation of the `isRunning` value captured at
render time (React state setters queued in one handler all read the same
render's values, so the negation applies to the original flag). -/
def toggleTimer (s : TimerState) : TimerState :=
  let s1 := if s.time = 0 then resetTimer s else s
  { s1 with isRunning := !s.isRunning }

/-- The source's `toggleSessionLength`: flip the mode flag and set `time` from
the pre-toggle flag (`isLongSession ? 25 * 60 : 50 * 60`, i.e. the new mode's
full length), stopping the timer. -/
def toggleSessionLength (s : TimerState) : TimerState :=
  { s with
    isLongSession := !s.isLongSession
    time := if s.isLongSession then 25 * 60 else 50 * 60
    isRunning := false }

/-- The source's `saveBlock`, with the wall clock passed in as `now`: a guarded
no-op without a user; otherwise append a block whose duration is the current
mode's full length minus `time`, persist the updated list, and clear the title
and notes inputs. -/
def saveBlock (now : String) (s : TimerState) : TimerState :=
  match s.user with
  | none => s
  | some _ =>
    let newBlock : TimerBlock :=
      { timestamp := now
        duration := if s.isLongSession then 50 * 60 - s.time else 25 * 60 - s.time
        title := s.title
        notes := s.notes }
    let updatedBlocks := s.savedBlocks ++ [newBlock]
    { s with
      savedBlocks := updatedBlocks
      storeBlocks := some updatedBlocks
      title := ""
      notes := "" }

/-- The source's `handleAuth`: build a user record holding only the email,
install it as the session user, persist it, and clear both inputs.  The
password reaches no value other than the cleared input field. -/
def handleAuth (s : TimerState) : TimerState :=
  let newUser : User := { email := s.email }
  { s with
    user := some newUser
    storeUser := some newUser
    email := ""
    password := "" }

/-- The source's `handleLogout`: drop the session user and its persisted
entry. -/
def handleLogout (s : TimerState) : TimerState :=
  { s with user := none, storeUser := none }

/-- JS `String.prototype.padStart(2, '0')`: prepend zeros up to length 2,
leaving longer strings untouched. -/
def padStart2 (s : String) : String :=
  if s.length < 2 then String.mk (List.replicate (2 - s.length) '0') ++ s else s

/-- The source's `formatTime`: minutes and seconds of the absolute value, each
zero-padded to two digits, with a leading minus sign for negative input. -/
def formatTime (seconds : Int) : String :=
  let mins := seconds.natAbs / 60
  let secs := seconds.natAbs % 60
  (if seconds < 0 then "-" else "") ++
    padStart2 (toString mins) ++ ":" ++ padStart2 (toString secs)

/-- JS `Array.prototype.join(sep)` on a list of strings. -/
def joinSep (sep : String) : List String → String
  | [] => ""
  | [a] => a
  | a :: rest => a ++ sep ++ joinSep sep rest

/-- One CSV data row of the source's `generateCSV`: locale-rendered timestamp,
formatted duration, title and notes, each cell wrapped in double quotes and the
cells joined with commas.  `localeString` stands for
`(t : string) => new Date(t).toLocaleString()`. -/
def csvRow (localeString : String → String) (b : TimerBlock) : String :=
  joinSep ","
    (([localeString b.timestamp, formatTime b.duration, b.title, b.notes]).map
      (fun cell => "\"" ++ cell ++ "\""))

/-- The CSV text built by the source's `generateCSV` (the download plumbing
around it carries no state): the joined header row followed by one row per
saved block, all joined with newlines. -/
def generateCSV (localeString : String → String) (blocks : List TimerBlock) : String :=
  joinSep "\n"
    (joinSep "," ["Timestamp", "Duration", "Title", "Notes"] ::
      blocks.map (csvRow localeString))

/-- Defined following the spec's words, for comparison with `generateCSV`: the
unquoted header row `Timestamp,Duration,Title,Notes`, then for each entry in
list order one further line of the four fields, each wrapped in double quotes
and comma-separated, the duration rendered as zero-padded sign-prefixed MM:SS
(which is `formatTime`). -/
def csvSpecText (localeString : String → String) (blocks : List TimerBlock) : String :=
  "Timestamp,Duration,Title,Notes" ++
    String.join (blocks.map (fun b =>
      "\n\"" ++ localeString b.timestamp ++ "\",\"" ++ formatTime b.duration ++
        "\",\"" ++ b.title ++ "\",\"" ++ b.notes ++ "\""))

/-- Accumulator step of the source's `dailySummaries` memo:
`summaries[date] = (summaries[date] || 0) + block.duration` on a JS object,
modelled as an insertion-ordered association list (JS objects preserve
insertion order of string keys, which `Object.entries` then reads back). -/
def addToSummaries (l : List (String × Int)) (date : String) (d : Int) :
    List (String × Int) :=
  match l with
  | [] => [(date, d)]
  | (k, v) :: rest =>
    if k = date then (k, v + d) :: rest else (k, v) :: addToSummaries rest date d

/-- The source's `dailySummaries`: fold every saved block into the summary
object keyed by the locale-rendered calendar date of its timestamp.
`localeDate` stands for `(t : string) => new Date(t).toLocaleDateString()`. -/
def dailySummaries (localeDate : String → String) (blocks : List TimerBlock) :
    List (String × Int) :=
  blocks.foldl (fun acc b => addToSummaries acc (localeDate b.timestamp) b.duration) []

/-- Sum of the durations of the blocks whose timestamp renders to `date`. -/
def sumForDate (localeDate : String → String) (date : String)
    (blocks : List TimerBlock) : Int :=
  ((blocks.filter (fun b => localeDate b.timestamp = date)).map
    (fun b => b.duration)).sum

/-- The user-driven events of the component, for stating reachability:
a timestamp accompanies `save`, an input value accompanies the four
controlled-input updates. -/
inductive Op where
  | tick : Op
  | toggleTimer : Op
  | resetTimer : Op
  | toggleSessionLength : Op
  | save : String → Op
  | auth : Op
  | logout : Op
  | setTitle : String → Op
  | setNotes : String → Op
  | setEmail : String → Op
  | setPassword : String → Op
  | toggleSound : Op
deriving DecidableEq, Repr

/-- Interpretation of one event as a state transformer. -/
def applyOp (op : Op) (s : TimerState) : TimerState :=
  match op with
  | Op.tick => tick s
  | Op.toggleTimer => toggleTimer s
  | Op.resetTimer => resetTimer s
  | Op.toggleSessionLength => toggleSessionLength s
  | Op.save now => saveBlock now s
  | Op.auth => handleAuth s
  | Op.logout => handleLogout s
  | Op.setTitle v => { s with title := v }
  | Op.setNotes v => { s with notes := v }
  | Op.setEmail v => { s with email := v }
  | Op.setPassword v => { s with password := v }
  | Op.toggleSound => { s with isSoundEnabled := !s.isSoundEnabled }

/-- Run a list of events from a state. -/
def run (ops : List Op) (s : TimerState) : TimerState :=
  ops.foldl (fun s op => applyOp op s) s

/-- The inductive invariant behind C4: the remaining time is never negative
and never exceeds the current mode's full length. -/
def timeBounds (s : TimerState) : Prop :=
  0 ≤ s.time ∧ s.time ≤ fullLength s.isLongSession

/-- First-match lookup in the summary association list (keys are unique, so
this is the JS object read `summaries[date]`). -/
def totalFor (l : List (String × Int)) (date : String) : Option Int :=
  match l with
  | [] => none
  | (k, v) :: rest => if k = date then some v else totalFor rest date

/-! ### String helper lemmas -/

lemma join_cons_str (a : String) (l : List String) :
    String.join (a :: l) = a ++ String.join l := by
  apply String.ext
  simp [String.data_append]

lemma joinSep_cons_join (sep : String) : ∀ (a : String) (l : List String),
    joinSep sep (a :: l) = a ++ String.join (l.map (fun x => sep ++ x)) := by
  intro a l
  induction l generalizing a with
  | nil =>
    show joinSep sep [a] = a ++ String.join []
    show a = a ++ ""
    exact (String.append_empty a).symm
  | cons b r ih =>
    show a ++ sep ++ joinSep sep (b :: r) = _
    rw [ih b, List.map_cons, join_cons_str, String.append_assoc,
      String.append_assoc]

lemma csvRow_eq (localeString : String → String) (b : TimerBlock) :
    csvRow localeString b =
      "\"" ++ localeString b.timestamp ++ "\",\"" ++ formatTime b.duration ++
        "\",\"" ++ b.title ++ "\",\"" ++ b.notes ++ "\"" := by
  have h1 : ("\"" : String).data = ['"'] := rfl
  have h2 : ("\",\"" : String).data = ['"', ',', '"'] := rfl
  have h3 : ("," : String).data = [','] := rfl
  apply String.ext
  simp [csvRow, joinSep, String.data_append, h1, h2, h3]

lemma newline_csvRow_eq (localeString : String → String) (b : TimerBlock) :
    "\n" ++ csvRow localeString b =
      "\n\"" ++ localeString b.timestamp ++ "\",\"" ++ formatTime b.duration ++
        "\",\"" ++ b.title ++ "\",\"" ++ b.notes ++ "\"" := by
  have h1 : ("\n" : String).data = ['\n'] := rfl
  have h2 : ("\n\"" : String).data = ['\n', '"'] := rfl
  have h3 : ("\"" : String).data = ['"'] := rfl
  rw [csvRow_eq]
  apply String.ext
  simp [String.data_append, h1, h2, h3]

/-! ### Basic tick lemmas -/

lemma tick_time_of_pos (s : TimerState) (h : 0 < s.time) :
    (tick s).time = s.time - 1 := by
  simp [tick, h]

lemma tick_iterate_time : ∀ (N : ℕ) (s : TimerState), (N : Int) ≤ s.time →
    (tick^[N] s).time = s.time - N := by
  intro N
  induction N with
  | zero => intro s _; simp
  | succ n ih =>
    intro s h
    have hpos : 0 < s.time := by push_cast at h; omega
    rw [Function.iterate_succ_apply,
      ih (tick s) (by rw [tick_time_of_pos s hpos]; push_cast at h ⊢; omega),
      tick_time_of_pos s hpos]
    push_cast
    ring

/-- C1: while running, a single tick decrements a positive remaining time by
exactly 1 and never takes it below 0; consequently, for every N and starting
remaining R with R ≥ N, applying tick N times yields remaining R − N. -/
theorem tick_countdown (s : TimerState) (_hrun : s.isRunning = true) :
    (0 < s.time → (tick s).time = s.time - 1) ∧
    (0 ≤ s.time → 0 ≤ (tick s).time) ∧
    (∀ N : ℕ, (N : Int) ≤ s.time → (tick^[N] s).time = s.time - N) := by
  refine ⟨fun h => tick_time_of_pos s h, fun h => ?_,
    fun N h => tick_iterate_time N s h⟩
  by_cases hp : 0 < s.time
  · rw [tick_time_of_pos s hp]; omega
  · simp [tick, hp]

/-- Witness for C1: three ticks from remaining 5 while running leave
remaining 2. -/
theorem tick_countdown_witness :
    (tick^[3] { initState with time := 5, isRunning := true }).time = 2 := by
  have h := (tick_countdown { initState with time := 5, isRunning := true }
    rfl).2.2 3 (by decide)
  simpa [initState] using h

/-- C2 counterexample: from remaining 1 and running, the tick that brings
remaining to 0 leaves running true, so the step reaching 0 does not set
running to false. -/
theorem tick_reaching_zero_keeps_running :
    (tick { initState with time := 1, isRunning := true }).time = 0 ∧
    (tick { initState with time := 1, isRunning := true }).isRunning = true := by
  decide

/-- C2 (amended): the tick decrementing remaining from 1 to 0 leaves running
unchanged; running becomes false on the next tick, which fires at remaining 0:
a tick at remaining 0 yields remaining 0 and running false and is idempotent
there, so running is set to false exactly once (by the first tick at 0). -/
theorem tick_stops_at_zero (s : TimerState) :
    (s.time = 1 → (tick s).time = 0 ∧ (tick s).isRunning = s.isRunning) ∧
    (s.time = 0 → (tick s).time = 0 ∧ (tick s).isRunning = false ∧
      tick (tick s) = tick s) := by
  constructor
  · intro h1; simp [tick, h1]
  · intro h0; simp [tick, h0]

/-- Witness for the amended C2 at remaining 0. -/
theorem tick_stops_at_zero_witness :
    (tick { initState with time := 0, isRunning := true }).isRunning = false ∧
    tick (tick { initState with time := 0, isRunning := true }) =
      tick { initState with time := 0, isRunning := true } := by
  have h := (tick_stops_at_zero { initState with time := 0, isRunning := true }).2
    rfl
  exact ⟨h.2.1, h.2.2⟩

/-- C5: toggling the session length flips the mode between short (full length
25·60 = 1500 s) and long (full length 50·60 = 3000 s), sets remaining to the
new mode's full length, and stops the timer. -/
theorem toggleSessionLength_switches (s : TimerState) :
    (toggleSessionLength s).isLongSession = !s.isLongSession ∧
    (toggleSessionLength s).time = fullLength (!s.isLongSession) ∧
    (toggleSessionLength s).isRunning = false ∧
    fullLength true = 3000 ∧ fullLength false = 1500 := by
  refine ⟨?_, ?_, ?_, by decide, by decide⟩ <;>
    cases hb : s.isLongSession <;> simp [toggleSessionLength, fullLength, hb]

/-- C6: from a paused state, `toggleTimer` (the start action) sets running to
true; if remaining is 0 it first resets remaining to the current mode's full
length, otherwise it leaves remaining unchanged. -/
theorem toggleTimer_starts (s : TimerState) (h : s.isRunning = false) :
    (toggleTimer s).isRunning = true ∧
    (s.time = 0 → (toggleTimer s).time = fullLength s.isLongSession) ∧
    (s.time ≠ 0 → (toggleTimer s).time = s.time) := by
  by_cases ht : s.time = 0 <;> simp [toggleTimer, resetTimer, ht, h]

/-- Witness for C6 at the initial state (paused, remaining 1500). -/
theorem toggleTimer_starts_witness :
    (toggleTimer initState).isRunning = true ∧
    (toggleTimer initState).time = 1500 := by
  have h := toggleTimer_starts initState rfl
  refine ⟨h.1, ?_⟩
  rw [h.2.2 (by decide)]
  decide

/-- C3: without a user, `saveBlock` is a strict no-op (the whole state,
including entry list, persisted store and both inputs, is unchanged); with a
user it appends exactly one block with duration equal to the current mode's
full length minus remaining and the supplied timestamp, persists the updated
list, and clears the title and notes inputs. -/
theorem saveBlock_guarded_append (now : String) (s : TimerState) :
    (s.user = none → saveBlock now s = s) ∧
    (∀ u : User, s.user = some u →
      (saveBlock now s).savedBlocks = s.savedBlocks ++
        [{ timestamp := now, duration := fullLength s.isLongSession - s.time,
           title := s.title, notes := s.notes }] ∧
      (saveBlock now s).storeBlocks = some ((saveBlock now s).savedBlocks) ∧
      (saveBlock now s).title = "" ∧ (saveBlock now s).notes = "") := by
  constructor
  · intro h; simp [saveBlock, h]
  · intro u hu
    cases hb : s.isLongSession <;> simp [saveBlock, hu, fullLength, hb]

/-- Witness for C3: full length 1500 and remaining 1200 give a single saved
block of duration 300. -/
theorem saveBlock_guarded_append_witness :
    (saveBlock "2024-01-02T03:04:05Z"
      { initState with
        time := 1200
        user := some (User.mk "a@b.c")
        title := "t"
        notes := "n" }).savedBlocks =
      [{ timestamp := "2024-01-02T03:04:05Z"
         duration := 300
         title := "t"
         notes := "n" }] := by
  have h := ((saveBlock_guarded_append "2024-01-02T03:04:05Z"
      { initState with
        time := 1200
        user := some (User.mk "a@b.c")
        title := "t"
        notes := "n" }).2 (User.mk "a@b.c") rfl).1
  rw [h]
  decide

/-- C10: two login submissions agreeing on the email and differing arbitrarily
in the password produce the same in-memory user and the same persisted user,
namely the record holding only the email. -/
theorem handleAuth_ignores_password (s1 s2 : TimerState)
    (h : s1.email = s2.email) :
    (handleAuth s1).user = (handleAuth s2).user ∧
    (handleAuth s1).storeUser = (handleAuth s2).storeUser ∧
    (handleAuth s1).user = some ({ email := s1.email } : User) ∧
    (handleAuth s1).storeUser = some ({ email := s1.email } : User) := by
  simp [handleAuth, h]

/-- Witness for C10: same email, two different passwords. -/
theorem handleAuth_ignores_password_witness :
    (handleAuth { initState with email := "a@b.c", password := "pw1" }).user =
      (handleAuth { initState with email := "a@b.c", password := "pw2" }).user ∧
    (handleAuth { initState with email := "a@b.c", password := "pw1" }).storeUser =
      (handleAuth { initState with email := "a@b.c", password := "pw2" }).storeUser := by
  have h := handleAuth_ignores_password
    { initState with email := "a@b.c", password := "pw1" }
    { initState with email := "a@b.c", password := "pw2" } rfl
  exact ⟨h.1, h.2.1⟩

/-! ### Invariant lemmas for C4 -/

lemma fullLength_nonneg (b : Bool) : 0 ≤ fullLength b := by
  cases b <;> decide

lemma fullLength_cases (b : Bool) :
    fullLength b = 1500 ∨ fullLength b = 3000 := by
  cases b <;> decide

lemma saveBlock_time_mode (now : String) (s : TimerState) :
    (saveBlock now s).time = s.time ∧
      (saveBlock now s).isLongSession = s.isLongSession := by
  cases h : s.user <;> simp [saveBlock, h]

lemma timeBounds_initState : timeBounds initState := by
  constructor <;> decide

lemma timeBounds_tick (s : TimerState) (h : timeBounds s) :
    timeBounds (tick s) := by
  obtain ⟨h0, h1⟩ := h
  have hnn := fullLength_nonneg s.isLongSession
  by_cases hp : 0 < s.time <;> simp [tick, timeBounds, hp] <;> omega

lemma timeBounds_resetTimer (s : TimerState) : timeBounds (resetTimer s) := by
  exact ⟨fullLength_nonneg s.isLongSession, le_refl _⟩

lemma timeBounds_toggleTimer (s : TimerState) (h : timeBounds s) :
    timeBounds (toggleTimer s) := by
  obtain ⟨h0, h1⟩ := h
  have hnn := fullLength_nonneg s.isLongSession
  by_cases ht : s.time = 0 <;>
    simp [toggleTimer, resetTimer, timeBounds, ht] <;> omega

lemma timeBounds_toggleSessionLength (s : TimerState) :
    timeBounds (toggleSessionLength s) := by
  cases hb : s.isLongSession <;>
    simp [toggleSessionLength, timeBounds, fullLength, hb]

lemma timeBounds_saveBlock (now : String) (s : TimerState) (h : timeBounds s) :
    timeBounds (saveBlock now s) := by
  obtain ⟨hp1, hp2⟩ := saveBlock_time_mode now s
  refine ⟨?_, ?_⟩
  · rw [hp1]; exact h.1
  · rw [hp1, hp2]; exact h.2

lemma timeBounds_applyOp (op : Op) (s : TimerState) (h : timeBounds s) :
    timeBounds (applyOp op s) := by
  cases op with
  | tick => exact timeBounds_tick s h
  | toggleTimer => exact timeBounds_toggleTimer s h
  | resetTimer => exact timeBounds_resetTimer s
  | toggleSessionLength => exact timeBounds_toggleSessionLength s
  | save now => exact timeBounds_saveBlock now s h
  | auth => exact h
  | logout => exact h
  | setTitle v => exact h
  | setNotes v => exact h
  | setEmail v => exact h
  | setPassword v => exact h
  | toggleSound => exact h

lemma timeBounds_run (ops : List Op) :
    ∀ s : TimerState, timeBounds s → timeBounds (run ops s) := by
  induction ops with
  | nil => intro s h; exact h
  | cons op ops ih => intro s h; exact ih (applyOp op s) (timeBounds_applyOp op s h)

/-- C4: from every state reachable from the initial state under the
component's events, a save (when a user is active) appends exactly one entry
whose duration d satisfies 0 ≤ d ≤ the active session's full length, which is
1500 or 3000. -/
theorem saved_duration_within_session_length (ops : List Op) (now : String)
    (u : User) (hu : (run ops initState).user = some u) :
    ∃ e : TimerBlock,
      (saveBlock now (run ops initState)).savedBlocks =
        (run ops initState).savedBlocks ++ [e] ∧
      0 ≤ e.duration ∧
      e.duration ≤ fullLength (run ops initState).isLongSession ∧
      (fullLength (run ops initState).isLongSession = 1500 ∨
        fullLength (run ops initState).isLongSession = 3000) := by
  obtain ⟨h0, h1⟩ := timeBounds_run ops initState timeBounds_initState
  refine ⟨{ timestamp := now
            duration := fullLength (run ops initState).isLongSession -
              (run ops initState).time
            title := (run ops initState).title
            notes := (run ops initState).notes }, ?_, ?_, ?_,
    fullLength_cases _⟩
  · cases hb : (run ops initState).isLongSession <;>
      simp [saveBlock, hu, fullLength, hb]
  · show (0 : Int) ≤ fullLength (run ops initState).isLongSession -
      (run ops initState).time
    omega
  · show fullLength (run ops initState).isLongSession -
      (run ops initState).time ≤ fullLength (run ops initState).isLongSession
    omega

/-- Witness for C4: the event list consisting of a single login, then a
save. -/
theorem saved_duration_within_session_length_witness :
    ∃ e : TimerBlock,
      (saveBlock "t" (run [Op.auth] initState)).savedBlocks =
        (run [Op.auth] initState).savedBlocks ++ [e] ∧
      0 ≤ e.duration ∧
      e.duration ≤ fullLength (run [Op.auth] initState).isLongSession ∧
      (fullLength (run [Op.auth] initState).isLongSession = 1500 ∨
        fullLength (run [Op.auth] initState).isLongSession = 3000) :=
  saved_duration_within_session_length [Op.auth] "t" (User.mk "") rfl

/-- C7: the generated CSV text is exactly the unquoted header row
`Timestamp,Duration,Title,Notes` followed by one row per entry in list order,
each of the four fields wrapped in double quotes and comma-separated, the
duration rendered by `formatTime` (zero-padded MM:SS, minus-prefixed when
negative). -/
theorem generateCSV_matches_spec (localeString : String → String)
    (blocks : List TimerBlock) :
    generateCSV localeString blocks = csvSpecText localeString blocks := by
  unfold generateCSV csvSpecText
  rw [joinSep_cons_join, List.map_map]
  have hhdr : joinSep "," ["Timestamp", "Duration", "Title", "Notes"] =
      "Timestamp,Duration,Title,Notes" := rfl
  rw [hhdr]
  congr 1
  congr 1
  apply List.map_congr_left
  intro b _
  exact newline_csvRow_eq localeString b

/-- C9: each field is embedded verbatim between one pair of double quotes with
no escaping or transformation, whatever characters (quotes, commas, newlines)
the field contains: the CSV of a single arbitrary entry is literally the
header plus the four raw field texts, quoted and comma-separated. -/
theorem generateCSV_embeds_fields_verbatim (localeString : String → String)
    (ts : String) (d : Int) (ti no : String) :
    generateCSV localeString [TimerBlock.mk ts d ti no] =
      "Timestamp,Duration,Title,Notes\n\"" ++ localeString ts ++ "\",\"" ++
        formatTime d ++ "\",\"" ++ ti ++ "\",\"" ++ no ++ "\"" := by
  have h1 : ("\"" : String).data = ['"'] := rfl
  have h2 : ("\",\"" : String).data = ['"', ',', '"'] := rfl
  have h3 : ("," : String).data = [','] := rfl
  have h4 : ("\n" : String).data = ['\n'] := rfl
  apply String.ext
  simp [generateCSV, csvRow, joinSep, String.data_append, h1, h2, h3, h4]

/-! ### Daily summary lemmas for C8 -/

lemma totalFor_addToSummaries (k date : String) (d : Int) :
    ∀ l : List (String × Int),
      totalFor (addToSummaries l k d) date =
        if k = date then some ((totalFor l date).getD 0 + d)
        else totalFor l date := by
  intro l
  induction l with
  | nil =>
    by_cases h : k = date <;> simp [addToSummaries, totalFor, h]
  | cons p rest ih =>
    obtain ⟨k0, v0⟩ := p
    by_cases h0 : k0 = k
    · subst h0
      by_cases hd : k0 = date <;> simp [addToSummaries, totalFor, hd]
    · by_cases hd : k0 = date
      · have hkd : ¬(k = date) := fun hh => h0 ((hh.trans hd.symm)).symm
        have hdk : ¬(date = k) := fun hh => hkd hh.symm
        simp [addToSummaries, totalFor, h0, hd, hkd, hdk]
      · simp [addToSummaries, totalFor, h0, hd, ih]

lemma sumForDate_cons (loc : String → String) (date : String) (b : TimerBlock)
    (rest : List TimerBlock) :
    sumForDate loc date (b :: rest) =
      (if loc b.timestamp = date then b.duration else 0) +
        sumForDate loc date rest := by
  by_cases hb : loc b.timestamp = date <;>
    simp [sumForDate, List.filter_cons, hb]

lemma totalFor_foldl (loc : String → String) :
    ∀ (blocks : List TimerBlock) (acc : List (String × Int)) (date : String),
      totalFor (blocks.foldl
        (fun acc b => addToSummaries acc (loc b.timestamp) b.duration) acc) date =
        if (blocks.filter (fun b => loc b.timestamp = date)).isEmpty then
          totalFor acc date
        else some ((totalFor acc date).getD 0 + sumForDate loc date blocks) := by
  intro blocks
  induction blocks with
  | nil => intro acc date; simp
  | cons b rest ih =>
    intro acc date
    rw [List.foldl_cons, ih]
    have haddto := totalFor_addToSummaries (loc b.timestamp) date b.duration acc
    by_cases hb : loc b.timestamp = date
    · rw [if_pos hb, hb] at haddto
      by_cases hr : (rest.filter (fun x => loc x.timestamp = date)).isEmpty
      · have hr2 : rest.filter (fun x => loc x.timestamp = date) = [] :=
          List.isEmpty_iff.mp hr
        simp [List.filter_cons, hb, hr, haddto, sumForDate, hr2]
      · simp [List.filter_cons, hb, hr, haddto, sumForDate_cons]
        ring
    · simp [List.filter_cons, hb, haddto, sumForDate_cons]

/-- C8: the daily summary is computed purely from the entry list, and for every
calendar date it holds an entry exactly when some block's timestamp renders to
that date, in which case its total is the sum of the durations of exactly the
blocks rendering to that date. -/
theorem dailySummaries_totals (localeDate : String → String)
    (blocks : List TimerBlock) (date : String) :
    totalFor (dailySummaries localeDate blocks) date =
      if (blocks.filter (fun b => localeDate b.timestamp = date)).isEmpty then
        none
      else some (sumForDate localeDate date blocks) := by
  have h := totalFor_foldl localeDate blocks [] date
  simpa [dailySummaries, totalFor] using h

end Pomodoro
